import Mathlib

/-!
Verification of the edit-tracking-to-SQL mutation pipeline of a desktop SQL
client.  The development shallowly embeds:

* the per-tab edit store (`use-edit-store`: snapshot map, modified-cell map,
  deletion set, new-row drafts, and `buildEditBatch`), translated from the
  renderer store source;
* the transactional executor of the `db:execute` IPC handler
  (`apps/desktop/src/main/app-state.ts`), translated from the main-process
  source, with the database driver abstracted as an outcome oracle;
* the operation validator and SQL synthesizer, which are not part of the
  provided sources and are modelled from the specification.

JavaScript `Map` and `Set` are embedded as insertion-ordered association
lists, which is exactly their iteration semantics; `crypto.randomUUID()` is
embedded as an explicit supply of identifier strings.
-/

/-- JavaScript runtime value as it appears in a result-set cell.  Strict
equality on primitives is structural; a non-primitive value (object/array) is
represented by a reference tag `obj ref`, so that equality of two `obj`
values is reference identity, matching the semantics of the source's
three-equals comparison. -/
inductive JSValue where
  | undef : JSValue
  | null : JSValue
  | bool : Bool → JSValue
  | num : Int → JSValue
  | str : String → JSValue
  | obj : Nat → JSValue
  deriving DecidableEq, Repr

/-- A result-set row: a JavaScript object, i.e. an ordered association list
from column name to value. -/
abbrev Row := List (String × JSValue)

/-- Lookup in a JavaScript `Map` (association list with unique keys, in
insertion order): `m.get(k)`. -/
def jsGet {κ α : Type} [DecidableEq κ] (m : List (κ × α)) (k : κ) : Option α :=
  (m.find? (fun p => decide (p.1 = k))).map (fun p => p.2)

/-- Membership test of a JavaScript `Map`: `m.has(k)`. -/
def jsHas {κ α : Type} [DecidableEq κ] (m : List (κ × α)) (k : κ) : Bool :=
  m.any (fun p => decide (p.1 = k))

/-- Update of a JavaScript `Map`: `m.set(k, v)` replaces the value in place
when the key is present (keeping its original insertion position) and appends
a new entry otherwise. -/
def jsSet {κ α : Type} [DecidableEq κ] (m : List (κ × α)) (k : κ) (v : α) :
    List (κ × α) :=
  if jsHas m k then m.map (fun p => if p.1 = k then (k, v) else p)
  else m ++ [(k, v)]

/-- Removal from a JavaScript `Map`: `m.delete(k)`. -/
def jsDelete {κ α : Type} [DecidableEq κ] (m : List (κ × α)) (k : κ) :
    List (κ × α) :=
  m.filter (fun p => decide (p.1 ≠ k))

/-- Member access `row[columnName]` on a JavaScript object: `undefined` when
the key is absent. -/
def rowGet (row : Row) (c : String) : JSValue :=
  (jsGet row c).getD JSValue.undef

/-- Insertion into a JavaScript `Set` (insertion-ordered): `s.add(x)`. -/
def setAdd (s : List Nat) (x : Nat) : List Nat :=
  if s.contains x then s else s ++ [x]

/-- Removal from a JavaScript `Set`: `s.delete(x)`. -/
def setRemove (s : List Nat) (x : Nat) : List Nat :=
  s.filter (fun y => decide (y ≠ x))

/-- Modelled from the spec: `EditContext` of the shared package (missing from
the provided sources): the mutation target and its row-identity columns,
`schema`, `table` and `primaryKeyColumns`. -/
structure EditContext where
  schema : String
  table : String
  primaryKeyColumns : List String
  deriving DecidableEq, Repr

/-- Modelled from the spec: one `changes` entry of an Update operation:
column, oldValue, newValue, dataType. -/
structure CellChange where
  column : String
  oldValue : JSValue
  newValue : JSValue
  dataType : String
  deriving DecidableEq, Repr

/-- Modelled from the spec: one `primaryKeys` entry of an Update/Delete
operation: column, value, dataType. -/
structure PrimaryKeyValue where
  column : String
  value : JSValue
  dataType : String
  deriving DecidableEq, Repr

/-- Modelled from the spec: the per-column payload carried by an Insert
operation (column name and dataType). -/
structure InsertColumn where
  name : String
  dataType : String
  deriving DecidableEq, Repr

/-- Modelled from the spec: the Update variant of `EditOperation`. -/
structure RowUpdate where
  id : String
  primaryKeys : List PrimaryKeyValue
  changes : List CellChange
  originalRow : Row
  deriving DecidableEq, Repr

/-- Modelled from the spec: the Delete variant of `EditOperation`. -/
structure RowDelete where
  id : String
  primaryKeys : List PrimaryKeyValue
  originalRow : Row
  deriving DecidableEq, Repr

/-- Modelled from the spec: the Insert variant of `EditOperation`. -/
structure RowInsert where
  id : String
  values : Row
  columns : List InsertColumn
  deriving DecidableEq, Repr

/-- Modelled from the spec: `EditOperation`, the tagged union of the three
row mutations. -/
inductive EditOperation where
  | update : RowUpdate → EditOperation
  | delete : RowDelete → EditOperation
  | insert : RowInsert → EditOperation
  deriving DecidableEq, Repr

/-- Identifier of an operation, as read by the executor (`operation.id`). -/
def opId : EditOperation → String
  | .update u => u.id
  | .delete d => d.id
  | .insert i => i.id

/-- Modelled from the spec: `EditBatch`, a context plus an ordered operation
list. -/
structure EditBatch where
  context : EditContext
  operations : List EditOperation
  deriving DecidableEq, Repr

/-- Column metadata consumed from schema introspection, translated from the
shared package's `ColumnInfo`. -/
structure ColumnInfo where
  name : String
  dataType : String
  isNullable : Bool
  isPrimaryKey : Bool
  ordinalPosition : Nat
  defaultValue : Option String
  deriving DecidableEq, Repr

/-- New-row draft of the edit store: a locally generated id plus the draft
values. -/
structure NewRowDraft where
  id : String
  values : Row
  deriving DecidableEq, Repr

/-- Per-tab edit state, translated from `TabEditState` of the edit store.
`modifiedCells` is keyed in the source by the composite string
`rowIndex:columnName`; since the row index is rendered in decimal (which
contains no colon), that composition is injective and the key is embedded as
the pair `(rowIndex, columnName)`.  `deletedRowIndices` is a JS `Set` and
`originalRows`/`modifiedCells` are JS `Map`s, all embedded as
insertion-ordered lists. -/
structure TabEditState where
  isEditMode : Bool
  context : Option EditContext
  operations : List EditOperation
  editingCell : Option (Nat × String)
  deletedRowIndices : List Nat
  newRows : List NewRowDraft
  originalRows : List (Nat × Row)
  modifiedCells : List ((Nat × String) × JSValue)
  deriving DecidableEq, Repr

/-- Translation of `getInitialTabEditState()`. -/
def getInitialTabEditState : TabEditState :=
  { isEditMode := false
    context := none
    operations := []
    editingCell := none
    deletedRowIndices := []
    newRows := []
    originalRows := []
    modifiedCells := [] }

/-- Store actions are embedded per tab: every store action reads
`tabEdits.get(tabId)` and writes back only that tab's entry, so the store is
a pointwise product of independent per-tab transitions.  A per-tab state of
`none` corresponds to the tab having no entry in the `tabEdits` map yet. -/
abbrev TabSlot := Option TabEditState

/-- Translation of `enterEditMode(tabId, context)`. -/
def enterEditMode (context : EditContext) (ts : TabSlot) : TabSlot :=
  let existing := ts.getD getInitialTabEditState
  some { existing with isEditMode := true, context := some context }

/-- Translation of `exitEditMode(tabId)`: no-op when the tab has no entry. -/
def exitEditMode (ts : TabSlot) : TabSlot :=
  match ts with
  | none => none
  | some t => some { t with isEditMode := false, editingCell := none }

/-- Translation of `startCellEdit(tabId, rowIndex, columnName)`. -/
def startCellEdit (rowIndex : Nat) (columnName : String) (ts : TabSlot) :
    TabSlot :=
  let existing := ts.getD getInitialTabEditState
  some { existing with editingCell := some (rowIndex, columnName) }

/-- Translation of `cancelCellEdit(tabId)`. -/
def cancelCellEdit (ts : TabSlot) : TabSlot :=
  match ts with
  | none => none
  | some t => some { t with editingCell := none }

/-- Translation of `updateCellValue(tabId, rowIndex, columnName, value,
originalRow)`.  The revert branch fires when the new value strictly equals
the original, or when the new value is the empty string and the original is
`null`; it then garbage-collects the row snapshot when no other modification
for this row remains — without consulting the deletion set. -/
def updateCellValue (rowIndex : Nat) (columnName : String) (value : JSValue)
    (originalRow : Row) (ts : TabSlot) : TabSlot :=
  let existing := ts.getD getInitialTabEditState
  let cellKey : Nat × String := (rowIndex, columnName)
  let originalValue := rowGet originalRow columnName
  if value = originalValue ∨ (value = JSValue.str "" ∧ originalValue = JSValue.null) then
    let newModifiedCells := jsDelete existing.modifiedCells cellKey
    let hasOtherModifications :=
      newModifiedCells.any (fun p => decide (p.1.1 = rowIndex))
    let newOriginalRows :=
      if hasOtherModifications then existing.originalRows
      else jsDelete existing.originalRows rowIndex
    some { existing with
      modifiedCells := newModifiedCells
      originalRows := newOriginalRows
      editingCell := none }
  else
    let newModifiedCells := jsSet existing.modifiedCells cellKey value
    let newOriginalRows :=
      if jsHas existing.originalRows rowIndex then existing.originalRows
      else jsSet existing.originalRows rowIndex originalRow
    some { existing with
      modifiedCells := newModifiedCells
      originalRows := newOriginalRows
      editingCell := none }

/-- Translation of `markRowForDeletion(tabId, rowIndex, originalRow)`:
snapshots the row only when no snapshot exists yet. -/
def markRowForDeletion (rowIndex : Nat) (originalRow : Row) (ts : TabSlot) :
    TabSlot :=
  let existing := ts.getD getInitialTabEditState
  let newDeletedIndices := setAdd existing.deletedRowIndices rowIndex
  let newOriginalRows :=
    if jsHas existing.originalRows rowIndex then existing.originalRows
    else jsSet existing.originalRows rowIndex originalRow
  some { existing with
    deletedRowIndices := newDeletedIndices
    originalRows := newOriginalRows }

/-- Translation of `unmarkRowForDeletion(tabId, rowIndex)`: removes the
deletion mark only; the snapshot map is left untouched. -/
def unmarkRowForDeletion (rowIndex : Nat) (ts : TabSlot) : TabSlot :=
  match ts with
  | none => none
  | some t =>
    some { t with deletedRowIndices := setRemove t.deletedRowIndices rowIndex }

/-- Translation of `addNewRow(tabId, defaultValues)`; the id generated by
`crypto.randomUUID()` is passed explicitly. -/
def addNewRow (id : String) (defaultValues : Row) (ts : TabSlot) : TabSlot :=
  let existing := ts.getD getInitialTabEditState
  some { existing with newRows := existing.newRows ++ [⟨id, defaultValues⟩] }

/-- Translation of `updateNewRowValue(tabId, rowId, columnName, value)`. -/
def updateNewRowValue (rowId : String) (columnName : String) (value : JSValue)
    (ts : TabSlot) : TabSlot :=
  match ts with
  | none => none
  | some t =>
    some { t with
      newRows := t.newRows.map (fun row =>
        if row.id = rowId then { row with values := jsSet row.values columnName value }
        else row) }

/-- Translation of `removeNewRow(tabId, rowId)`. -/
def removeNewRow (rowId : String) (ts : TabSlot) : TabSlot :=
  match ts with
  | none => none
  | some t => some { t with newRows := t.newRows.filter (fun r => decide (r.id ≠ rowId)) }

/-- Translation of `revertCellChange(tabId, rowIndex, columnName)`: unlike
`updateCellValue`, its snapshot garbage collection also checks the deletion
set. -/
def revertCellChange (rowIndex : Nat) (columnName : String) (ts : TabSlot) :
    TabSlot :=
  match ts with
  | none => none
  | some t =>
    let newModifiedCells := jsDelete t.modifiedCells (rowIndex, columnName)
    let hasOtherModifications :=
      newModifiedCells.any (fun p => decide (p.1.1 = rowIndex))
    let newOriginalRows :=
      if !hasOtherModifications && !t.deletedRowIndices.contains rowIndex then
        jsDelete t.originalRows rowIndex
      else t.originalRows
    some { t with
      modifiedCells := newModifiedCells
      originalRows := newOriginalRows }

/-- Translation of `revertRowChanges(tabId, rowIndex)`. -/
def revertRowChanges (rowIndex : Nat) (ts : TabSlot) : TabSlot :=
  match ts with
  | none => none
  | some t =>
    some { t with
      modifiedCells := t.modifiedCells.filter (fun p => decide (p.1.1 ≠ rowIndex))
      deletedRowIndices := setRemove t.deletedRowIndices rowIndex
      originalRows := jsDelete t.originalRows rowIndex }

/-- Translation of `revertAllChanges(tabId)`. -/
def revertAllChanges (ts : TabSlot) : TabSlot :=
  match ts with
  | none => none
  | some t =>
    some { t with
      modifiedCells := []
      deletedRowIndices := []
      originalRows := []
      newRows := []
      operations := [] }

/-- Translation of `clearPendingChanges(tabId)`. -/
def clearPendingChanges (ts : TabSlot) : TabSlot :=
  match ts with
  | none => none
  | some t =>
    some { t with
      modifiedCells := []
      deletedRowIndices := []
      originalRows := []
      newRows := []
      operations := [] }

/-- First-occurrence deduplication: the element order produced by iterating a
JavaScript `Set` that was filled from the given list (a `Set` keeps each
element at its first insertion position). -/
def insertionDedup : List Nat → List Nat
  | [] => []
  | a :: l => a :: (insertionDedup l).filter (fun b => decide (b ≠ a))

/-- Translation of the `modifiedRowIndices` set of `buildEditBatch`: the row
index of every modified-cell key (`parseInt(key.split(':')[0])`, i.e. the
first pair component), deduplicated in first-insertion order. -/
def modifiedRowIndicesOf (cells : List ((Nat × String) × JSValue)) : List Nat :=
  insertionDedup (cells.map (fun p => p.1.1))

/-- Translation of `columns.find((c) => c.name === columnName)?.dataType ??
'text'`. -/
def dataTypeOf (cols : List ColumnInfo) (c : String) : String :=
  ((cols.find? (fun ci => decide (ci.name = c))).map (fun ci => ci.dataType)).getD "text"

/-- Translation of the `changes` loop of `buildEditBatch`: every modified
cell whose key belongs to row `r` (the source tests
`key.startsWith(rowIndex + colon)`), in modified-cell insertion order. -/
def rowChanges (cells : List ((Nat × String) × JSValue)) (cols : List ColumnInfo)
    (originalRow : Row) (r : Nat) : List CellChange :=
  cells.filterMap (fun p =>
    if p.1.1 = r then
      some { column := p.1.2
             oldValue := rowGet originalRow p.1.2
             newValue := p.2
             dataType := dataTypeOf cols p.1.2 }
    else none)

/-- Translation of the `primaryKeys` construction of `buildEditBatch`: one
entry per `context.primaryKeyColumns` element, with the value read off the
given (snapshot) row. -/
def mkPrimaryKeys (ctx : EditContext) (cols : List ColumnInfo) (originalRow : Row) :
    List PrimaryKeyValue :=
  ctx.primaryKeyColumns.map (fun pkCol =>
    { column := pkCol, value := rowGet originalRow pkCol, dataType := dataTypeOf cols pkCol })

/-- Guard under which the update loop of `buildEditBatch` emits an operation
for row `r`: not marked deleted, a snapshot exists, and at least one change
is collected. -/
def emitsUpdate (t : TabEditState) (cols : List ColumnInfo) (r : Nat) : Bool :=
  !t.deletedRowIndices.contains r &&
    match jsGet t.originalRows r with
    | none => false
    | some originalRow => decide (0 < (rowChanges t.modifiedCells cols originalRow r).length)

/-- The Update operation emitted for row `r` with identifier `id` (the
snapshot row is total here; the guard `emitsUpdate` ensures it exists). -/
def mkUpdateOp (t : TabEditState) (ctx : EditContext) (cols : List ColumnInfo)
    (id : String) (r : Nat) : EditOperation :=
  let originalRow := (jsGet t.originalRows r).getD []
  EditOperation.update
    { id := id
      primaryKeys := mkPrimaryKeys ctx cols originalRow
      changes := rowChanges t.modifiedCells cols originalRow r
      originalRow := originalRow }

/-- The Delete operation emitted for row `r` with identifier `id`. -/
def mkDeleteOp (t : TabEditState) (ctx : EditContext) (cols : List ColumnInfo)
    (id : String) (r : Nat) : EditOperation :=
  let originalRow := (jsGet t.originalRows r).getD []
  EditOperation.delete
    { id := id
      primaryKeys := mkPrimaryKeys ctx cols originalRow
      originalRow := originalRow }

/-- Translation of the UPDATE loop of `buildEditBatch`.  `gen` supplies the
successive results of `crypto.randomUUID()` and `k` counts the draws already
made. -/
def buildUpdatesAux (t : TabEditState) (ctx : EditContext) (cols : List ColumnInfo)
    (gen : Nat → String) : List Nat → Nat → List EditOperation
  | [], _ => []
  | r :: rs, k =>
    if t.deletedRowIndices.contains r then buildUpdatesAux t ctx cols gen rs k
    else
      match jsGet t.originalRows r with
      | none => buildUpdatesAux t ctx cols gen rs k
      | some originalRow =>
        if 0 < (rowChanges t.modifiedCells cols originalRow r).length then
          mkUpdateOp t ctx cols (gen k) r :: buildUpdatesAux t ctx cols gen rs (k + 1)
        else buildUpdatesAux t ctx cols gen rs k

/-- Translation of the DELETE loop of `buildEditBatch`: rows are visited in
deletion-set insertion order; rows without a snapshot are skipped. -/
def buildDeletesAux (t : TabEditState) (ctx : EditContext) (cols : List ColumnInfo)
    (gen : Nat → String) : List Nat → Nat → List EditOperation
  | [], _ => []
  | r :: rs, k =>
    match jsGet t.originalRows r with
    | none => buildDeletesAux t ctx cols gen rs k
    | some _ => mkDeleteOp t ctx cols (gen k) r :: buildDeletesAux t ctx cols gen rs (k + 1)

/-- Translation of the INSERT loop of `buildEditBatch`: one Insert per
new-row draft, in draft insertion order, reusing the draft's id and carrying
the full column list. -/
def buildInserts (newRows : List NewRowDraft) (cols : List ColumnInfo) :
    List EditOperation :=
  newRows.map (fun nr =>
    EditOperation.insert
      { id := nr.id
        values := nr.values
        columns := cols.map (fun c => { name := c.name, dataType := c.dataType }) })

/-- Row emission order of the update loop: modified rows in first-insertion
order of `modifiedCells`, restricted to those that pass the emission guard. -/
def updateRowOrder (t : TabEditState) (cols : List ColumnInfo) : List Nat :=
  (modifiedRowIndicesOf t.modifiedCells).filter (emitsUpdate t cols)

/-- Row emission order of the delete loop: the deletion set in mark
(insertion) order, restricted to rows that still have a snapshot. -/
def deleteRowOrder (t : TabEditState) : List Nat :=
  t.deletedRowIndices.filter (fun r => (jsGet t.originalRows r).isSome)

/-- The full operation list of `buildEditBatch`: the three loops push into a
single array, with the uuid supply consumed first by the updates and then by
the deletes. -/
def buildOperations (t : TabEditState) (ctx : EditContext) (cols : List ColumnInfo)
    (gen : Nat → String) : List EditOperation :=
  buildUpdatesAux t ctx cols gen (modifiedRowIndicesOf t.modifiedCells) 0
    ++ buildDeletesAux t ctx cols gen t.deletedRowIndices (updateRowOrder t cols).length
    ++ buildInserts t.newRows cols

/-- Translation of `buildEditBatch(tabId, columns)`: `null` when the tab has
no edit state or no context, and `null` when the operation list comes out
empty. -/
def buildEditBatch (ts : TabSlot) (cols : List ColumnInfo) (gen : Nat → String) :
    Option EditBatch :=
  match ts with
  | none => none
  | some t =>
    match t.context with
    | none => none
    | some ctx =>
      let ops := buildOperations t ctx cols gen
      if ops.length = 0 then none else some { context := ctx, operations := ops }

/-- Modelled from the spec: the result shape of the OperationValidator,
`validateOperation(op) -> (valid, error?)`. -/
structure ValidationResult where
  valid : Bool
  error : Option String
  deriving DecidableEq, Repr

/-- Modelled from the spec: OperationValidator — Update/Delete require a
non-empty `primaryKeys` array with no undefined values; Insert requires a
non-empty `values` map. -/
def validateOperation : EditOperation → ValidationResult
  | .update u =>
    if u.primaryKeys.length = 0 then
      { valid := false, error := some "Update operation requires primary key values" }
    else if u.primaryKeys.any (fun pk => decide (pk.value = JSValue.undef)) then
      { valid := false, error := some "Update operation has an undefined primary key value" }
    else { valid := true, error := none }
  | .delete d =>
    if d.primaryKeys.length = 0 then
      { valid := false, error := some "Delete operation requires primary key values" }
    else if d.primaryKeys.any (fun pk => decide (pk.value = JSValue.undef)) then
      { valid := false, error := some "Delete operation has an undefined primary key value" }
    else { valid := true, error := none }
  | .insert i =>
    if i.values.length = 0 then
      { valid := false, error := some "Insert operation requires values" }
    else { valid := true, error := none }

/-- Double-quoted identifier, the postgresql dialect fixed by the executor's
call site. -/
def quoteIdent (s : String) : String := "\"" ++ s ++ "\""

/-- The schema-qualified table name used by every statement shape. -/
def qualifiedTable (ctx : EditContext) : String :=
  quoteIdent ctx.schema ++ "." ++ quoteIdent ctx.table

/-- Numbered postgresql placeholder. -/
def placeholder (n : Nat) : String := "$" ++ toString n

/-- Whether a declared column type is a JSON type. -/
def isJsonType (dt : String) : Bool := dt = "json" || dt = "jsonb"

/-- Modelled from the spec: serialization of a JSON-typed value to text
before binding. -/
def jsonText : JSValue → String
  | .undef => "null"
  | .null => "null"
  | .bool b => cond b "true" "false"
  | .num n => toString n
  | .str s => "\"" ++ s ++ "\""
  | .obj r => "\"object-" ++ toString r ++ "\""

/-- Modelled from the spec: the bound parameter for a value — JSON-typed
values are serialized to text, every other value passes through unchanged. -/
def bindValue (dt : String) (v : JSValue) : JSValue :=
  if isJsonType dt then JSValue.str (jsonText v) else v

/-- A parameterized statement: the sql text plus its bound parameters. -/
structure BuiltQuery where
  sql : String
  params : List JSValue
  deriving DecidableEq, Repr

/-- Modelled from the spec: SqlSynthesizer `buildQuery(op, context,
'postgresql')` — one fully parameterized statement per operation, in the
spec's three statement shapes, with values passed only as bound parameters. -/
def buildQuery (op : EditOperation) (ctx : EditContext) : BuiltQuery :=
  match op with
  | .update u =>
    let setParts := (List.enumFrom 1 u.changes).map
      (fun p => quoteIdent p.2.column ++ " = " ++ placeholder p.1)
    let whereParts := (List.enumFrom (u.changes.length + 1) u.primaryKeys).map
      (fun p => quoteIdent p.2.column ++ " = " ++ placeholder p.1)
    { sql := "UPDATE " ++ qualifiedTable ctx ++ " SET " ++
        String.intercalate ", " setParts ++ " WHERE " ++
        String.intercalate " AND " whereParts
      params := u.changes.map (fun ch => bindValue ch.dataType ch.newValue) ++
        u.primaryKeys.map (fun pk => bindValue pk.dataType pk.value) }
  | .delete d =>
    let whereParts := (List.enumFrom 1 d.primaryKeys).map
      (fun p => quoteIdent p.2.column ++ " = " ++ placeholder p.1)
    { sql := "DELETE FROM " ++ qualifiedTable ctx ++ " WHERE " ++
        String.intercalate " AND " whereParts
      params := d.primaryKeys.map (fun pk => bindValue pk.dataType pk.value) }
  | .insert i =>
    let colNames := i.columns.map (fun c => quoteIdent c.name)
    let placeholders := (List.range i.columns.length).map (fun n => placeholder (n + 1))
    { sql := "INSERT INTO " ++ qualifiedTable ctx ++ " (" ++
        String.intercalate ", " colNames ++ ") VALUES (" ++
        String.intercalate ", " placeholders ++ ")"
      params := i.columns.map (fun c =>
        let v := rowGet i.values c.name
        bindValue c.dataType (if v = JSValue.undef then JSValue.null else v)) }

/-- Doubling of embedded single quotes, the safe escaping of a string
literal. -/
def escapeSingleQuotes (s : String) : String :=
  String.mk (s.data.flatMap (fun ch => if ch = '\x27' then ['\x27', '\x27'] else [ch]))

/-- Safely escaped literal rendering of a value for preview display. -/
def sqlLiteral : JSValue → String
  | .undef => "NULL"
  | .null => "NULL"
  | .bool b => cond b "TRUE" "FALSE"
  | .num n => toString n
  | .str s => "\x27" ++ escapeSingleQuotes s ++ "\x27"
  | .obj r => "\x27" ++ jsonText (JSValue.obj r) ++ "\x27"

/-- Modelled from the spec: SqlSynthesizer `buildPreviewSql(op, context,
'postgresql') -> string` — the same statement shape as `buildQuery` but with
literal, safely-escaped values inlined, returned as a bare string for human
display. -/
def buildPreviewSql (op : EditOperation) (ctx : EditContext) : String :=
  match op with
  | .update u =>
    let setParts := u.changes.map
      (fun ch => quoteIdent ch.column ++ " = " ++ sqlLiteral (bindValue ch.dataType ch.newValue))
    let whereParts := u.primaryKeys.map
      (fun pk => quoteIdent pk.column ++ " = " ++ sqlLiteral (bindValue pk.dataType pk.value))
    "UPDATE " ++ qualifiedTable ctx ++ " SET " ++ String.intercalate ", " setParts ++
      " WHERE " ++ String.intercalate " AND " whereParts
  | .delete d =>
    let whereParts := d.primaryKeys.map
      (fun pk => quoteIdent pk.column ++ " = " ++ sqlLiteral (bindValue pk.dataType pk.value))
    "DELETE FROM " ++ qualifiedTable ctx ++ " WHERE " ++
      String.intercalate " AND " whereParts
  | .insert i =>
    let colNames := i.columns.map (fun c => quoteIdent c.name)
    let vals := i.columns.map (fun c =>
      let v := rowGet i.values c.name
      sqlLiteral (bindValue c.dataType (if v = JSValue.undef then JSValue.null else v)))
    "INSERT INTO " ++ qualifiedTable ctx ++ " (" ++ String.intercalate ", " colNames ++
      ") VALUES (" ++ String.intercalate ", " vals ++ ")"

/-- One call made against the pg `Client`: `connect()`, `query(sql, params)`
(control statements pass no parameters), or `end()`. -/
inductive DbCall where
  | connect : DbCall
  | query : String → List JSValue → DbCall
  | endConn : DbCall
  deriving DecidableEq, Repr

/-- Outcome oracle for the pg `Client` used by the `db:execute` handler: each
call either succeeds (queries yielding a row count, `res.rowCount ?? 0`) or
raises an error with a message. -/
structure PgClient where
  connectOutcome : Except String Unit
  queryOutcome : String → List JSValue → Except String Nat
  endOutcome : Except String Unit

/-- One collected per-operation error, `(operationId, message)`. -/
structure OpError where
  operationId : String
  message : String
  deriving DecidableEq, Repr

/-- The `EditResult` value the handler accumulates.  `executedSql` holds the
bare strings returned by `buildPreviewSql` — the handler pushes `previewSql`
itself, without pairing it with the operation id. -/
structure EditResult where
  success : Bool
  rowsAffected : Nat
  executedSql : List String
  errors : List OpError
  deriving DecidableEq, Repr

/-- The IPC-level response of the handler: either the `EditResult` payload
(`return (success: true, data: result)`) or a transport-level failure
(`return (success: false, error)`). -/
inductive IpcResp where
  | ok : EditResult → IpcResp
  | fail : String → IpcResp
  deriving DecidableEq, Repr

/-- Contribution of the per-operation loop body: driver calls made, rows
affected, preview sql pushed, and errors recorded. -/
structure OpLoopOut where
  calls : List DbCall
  rowsAffected : Nat
  executedSql : List String
  errors : List OpError
  deriving DecidableEq, Repr

/-- Translation of one iteration of the `db:execute` loop: an invalid
operation records a validation error and executes nothing; a valid operation
first pushes its preview sql, then runs its parameterized statement, either
accumulating the row count or recording the caught runtime error. -/
def opOutcome (client : PgClient) (ctx : EditContext) (op : EditOperation) :
    OpLoopOut :=
  let validation := validateOperation op
  if validation.valid then
    let q := buildQuery op ctx
    let previewSql := buildPreviewSql op ctx
    match client.queryOutcome q.sql q.params with
    | .ok n =>
      { calls := [DbCall.query q.sql q.params], rowsAffected := n
        executedSql := [previewSql], errors := [] }
    | .error e =>
      { calls := [DbCall.query q.sql q.params], rowsAffected := 0
        executedSql := [previewSql]
        errors := [{ operationId := opId op, message := e }] }
  else
    { calls := [], rowsAffected := 0, executedSql := []
      errors := [{ operationId := opId op, message := validation.error.getD "" }] }

/-- Translation of the full per-operation loop of `db:execute`: the loop's
mutable accumulation of calls, row counts, preview sql and errors, in batch
order. -/
def runOps (client : PgClient) (ctx : EditContext) :
    List EditOperation → OpLoopOut
  | [] => { calls := [], rowsAffected := 0, executedSql := [], errors := [] }
  | op :: ops =>
    let o := opOutcome client ctx op
    let rest := runOps client ctx ops
    { calls := o.calls ++ rest.calls
      rowsAffected := o.rowsAffected + rest.rowsAffected
      executedSql := o.executedSql ++ rest.executedSql
      errors := o.errors ++ rest.errors }

/-- Calls made by the handler's outer catch block: a best-effort
`client.query('ROLLBACK')` whose failure is swallowed, then a best-effort
`client.end()` whose failure is swallowed. -/
def catchCalls : List DbCall := [DbCall.query "ROLLBACK" [], DbCall.endConn]

/-- Translation of the `db:execute` IPC handler: connect, `BEGIN`, the
per-operation loop, then `ROLLBACK` with `success := false` when any error
was collected or `COMMIT` otherwise, and `end`.  Any exception escaping
connect/`BEGIN`/`COMMIT`/`ROLLBACK`/`end` lands in the outer catch, which
attempts a swallowed rollback and returns a transport failure carrying the
original message.  The first component is the full trace of driver calls. -/
def dbExecute (client : PgClient) (batch : EditBatch) : List DbCall × IpcResp :=
  match client.connectOutcome with
  | .error e => (DbCall.connect :: catchCalls, IpcResp.fail e)
  | .ok _ =>
    match client.queryOutcome "BEGIN" [] with
    | .error e => ([DbCall.connect, DbCall.query "BEGIN" []] ++ catchCalls, IpcResp.fail e)
    | .ok _ =>
      let loopOut := runOps client batch.context batch.operations
      let pre := [DbCall.connect, DbCall.query "BEGIN" []] ++ loopOut.calls
      if 0 < loopOut.errors.length then
        match client.queryOutcome "ROLLBACK" [] with
        | .error e => (pre ++ [DbCall.query "ROLLBACK" []] ++ catchCalls, IpcResp.fail e)
        | .ok _ =>
          match client.endOutcome with
          | .error e =>
            (pre ++ [DbCall.query "ROLLBACK" [], DbCall.endConn] ++ catchCalls, IpcResp.fail e)
          | .ok _ =>
            (pre ++ [DbCall.query "ROLLBACK" [], DbCall.endConn],
             IpcResp.ok
               { success := false, rowsAffected := loopOut.rowsAffected
                 executedSql := loopOut.executedSql, errors := loopOut.errors })
      else
        match client.queryOutcome "COMMIT" [] with
        | .error e => (pre ++ [DbCall.query "COMMIT" []] ++ catchCalls, IpcResp.fail e)
        | .ok _ =>
          match client.endOutcome with
          | .error e =>
            (pre ++ [DbCall.query "COMMIT" [], DbCall.endConn] ++ catchCalls, IpcResp.fail e)
          | .ok _ =>
            (pre ++ [DbCall.query "COMMIT" [], DbCall.endConn],
             IpcResp.ok
               { success := true, rowsAffected := loopOut.rowsAffected
                 executedSql := loopOut.executedSql, errors := loopOut.errors })

/-- One invocation of an edit-store action on a given tab, with every
generated id (for `addNewRow`) made explicit. -/
inductive EditAction where
  | enterEditMode : EditContext → EditAction
  | exitEditMode : EditAction
  | startCellEdit : Nat → String → EditAction
  | cancelCellEdit : EditAction
  | updateCellValue : Nat → String → JSValue → Row → EditAction
  | markRowForDeletion : Nat → Row → EditAction
  | unmarkRowForDeletion : Nat → EditAction
  | addNewRow : String → Row → EditAction
  | updateNewRowValue : String → String → JSValue → EditAction
  | removeNewRow : String → EditAction
  | revertCellChange : Nat → String → EditAction
  | revertRowChanges : Nat → EditAction
  | revertAllChanges : EditAction
  | clearPendingChanges : EditAction

/-- Dispatch of an action to its store transition. -/
def applyAction : EditAction → TabSlot → TabSlot
  | .enterEditMode ctx, ts => enterEditMode ctx ts
  | .exitEditMode, ts => exitEditMode ts
  | .startCellEdit r c, ts => startCellEdit r c ts
  | .cancelCellEdit, ts => cancelCellEdit ts
  | .updateCellValue r c v row, ts => updateCellValue r c v row ts
  | .markRowForDeletion r row, ts => markRowForDeletion r row ts
  | .unmarkRowForDeletion r, ts => unmarkRowForDeletion r ts
  | .addNewRow id defaults, ts => addNewRow id defaults ts
  | .updateNewRowValue rowId c v, ts => updateNewRowValue rowId c v ts
  | .removeNewRow rowId, ts => removeNewRow rowId ts
  | .revertCellChange r c, ts => revertCellChange r c ts
  | .revertRowChanges r, ts => revertRowChanges r ts
  | .revertAllChanges, ts => revertAllChanges ts
  | .clearPendingChanges, ts => clearPendingChanges ts

/-- Whether an action is the `enterEditMode` action (the only setter of the
edit context). -/
def isEnterAction : EditAction → Bool
  | .enterEditMode _ => true
  | _ => false

/-- Tab states reachable from a fresh store without ever calling
`enterEditMode` for this tab. -/
inductive ReachableNoEnter : TabSlot → Prop
  | init : ReachableNoEnter none
  | step (a : EditAction) (ts : TabSlot) : ReachableNoEnter ts →
      isEnterAction a = false → ReachableNoEnter (applyAction a ts)

/-- The per-tab state a slot denotes: a missing entry behaves as the initial
state for the actions that lazily create it. -/
def slotState (ts : TabSlot) : TabEditState :=
  ts.getD getInitialTabEditState

/-- The edit context stored in a slot (none when the tab has no entry). -/
def slotContext : TabSlot → Option EditContext
  | none => none
  | some t => t.context

/-- The per-operation error the `db:execute` loop records for one operation:
its validation error when invalid, the caught runtime error when its
statement fails, and nothing when it succeeds. -/
def opErrorOf (client : PgClient) (ctx : EditContext) (op : EditOperation) :
    Option OpError :=
  let validation := validateOperation op
  if validation.valid then
    match client.queryOutcome (buildQuery op ctx).sql (buildQuery op ctx).params with
    | .ok _ => none
    | .error e => some { operationId := opId op, message := e }
  else some { operationId := opId op, message := validation.error.getD "" }

/-- Operation identity erasure used to compare batches up to the ids freshly
drawn from `crypto.randomUUID()`: Update and Delete ids are blanked, Insert
ids (which come from the stored draft) are kept. -/
def eraseGeneratedId : EditOperation → EditOperation
  | .update u => EditOperation.update { u with id := "" }
  | .delete d => EditOperation.delete { d with id := "" }
  | .insert i => EditOperation.insert i

/-- Shape of a built batch with the freshly generated operation ids erased. -/
def batchShape (b : Option EditBatch) : Option (EditContext × List EditOperation) :=
  b.map (fun bb => (bb.context, bb.operations.map eraseGeneratedId))
/-- Primary-key values of the Update operations of a built batch, in emission
order (used to exhibit the emission order on concrete states whose rows are
identified by their primary-key value). -/
def updatePkValues (b : Option EditBatch) : List (List JSValue) :=
  match b with
  | none => []
  | some bb =>
    bb.operations.filterMap (fun op =>
      match op with
      | .update u => some (u.primaryKeys.map (fun pk => pk.value))
      | _ => none)

/-- Concrete context: table `public.users` with primary key `id`. -/
def exCtx : EditContext :=
  { schema := "public", table := "users", primaryKeyColumns := ["id"] }

/-- Concrete column metadata for `public.users`. -/
def exCols : List ColumnInfo :=
  [{ name := "id", dataType := "integer", isNullable := false, isPrimaryKey := true
     ordinalPosition := 1, defaultValue := none },
   { name := "name", dataType := "text", isNullable := true, isPrimaryKey := false
     ordinalPosition := 2, defaultValue := none }]

/-- Concrete uuid supply. -/
def exGen : Nat → String := fun n => "u" ++ toString n

/-- Driver behavior for the C1 witness: the statement with two bound
parameters (the update) violates a constraint; every other statement
succeeds. -/
def c1client : PgClient :=
  { connectOutcome := Except.ok ()
    queryOutcome := fun _ ps =>
      if ps.length = 2 then Except.error "violates check constraint" else Except.ok 1
    endOutcome := Except.ok () }

/-- A valid Insert operation (C1 witness, first operation). -/
def c1insert : EditOperation :=
  EditOperation.insert
    { id := "op1"
      values := [("name", JSValue.str "Carl")]
      columns := [{ name := "name", dataType := "text" }] }

/-- A valid Update operation whose statement fails (C1 witness, second
operation). -/
def c1update : EditOperation :=
  EditOperation.update
    { id := "op2"
      primaryKeys := [{ column := "id", value := JSValue.num 2, dataType := "integer" }]
      changes := [{ column := "name", oldValue := JSValue.str "Bob"
                    newValue := JSValue.str "Bo", dataType := "text" }]
      originalRow := [("id", JSValue.num 2), ("name", JSValue.str "Bob")] }

/-- The two-operation batch of the C1 witness. -/
def c1batch : EditBatch := { context := exCtx, operations := [c1insert, c1update] }

/-- Row 5 of the C3 counterexample state. -/
def c3row5 : Row := [("id", JSValue.num 5), ("name", JSValue.str "Eve")]

/-- Row 2 of the C3 counterexample state. -/
def c3row2 : Row := [("id", JSValue.num 2), ("name", JSValue.str "Bob")]

/-- C3 counterexample state: the user edits row 5 first and row 2 second. -/
def c3slot : TabSlot :=
  updateCellValue 2 "name" (JSValue.str "Bo") c3row2
    (updateCellValue 5 "name" (JSValue.str "Ev") c3row5 (enterEditMode exCtx none))

/-- The original row of the C4 failing run. -/
def c4row : Row := [("id", JSValue.num 7), ("name", JSValue.str "Ann")]

/-- C4 failing run: mark row 0 deleted (snapshot taken), edit a cell, then
revert that edit through `updateCellValue`. -/
def c4slot : TabSlot :=
  updateCellValue 0 "name" (JSValue.str "Ann") c4row
    (updateCellValue 0 "name" (JSValue.str "Bea") c4row
      (markRowForDeletion 0 c4row (enterEditMode exCtx none)))

/-- C4 companion run: mark row 0 deleted, then unmark it. -/
def c4unmarkSlot : TabSlot :=
  unmarkRowForDeletion 0 (markRowForDeletion 0 c4row (enterEditMode exCtx none))

/-- The original row of the C5 witness (primary key value 1). -/
def c5row : Row := [("id", JSValue.num 1)]

/-- C5 witness state: the primary-key column itself has a pending edit
(1 → 99). -/
def c5state : TabEditState :=
  slotState (updateCellValue 0 "id" (JSValue.num 99) c5row (enterEditMode exCtx none))

/-- The single Update operation `buildEditBatch` emits for the C5 witness
state: its primary key carries the snapshot value 1, not the edited 99. -/
def c5op : EditOperation :=
  EditOperation.update
    { id := "u0"
      primaryKeys := [{ column := "id", value := JSValue.num 1, dataType := "integer" }]
      changes := [{ column := "id", oldValue := JSValue.num 1
                    newValue := JSValue.num 99, dataType := "integer" }]
      originalRow := c5row }

/-- C7 counterexample state: one pending cell edit, so the batch holds one
Update operation with a freshly generated id. -/
def c7slot : TabSlot :=
  updateCellValue 5 "name" (JSValue.str "Zoe")
    [("id", JSValue.num 5), ("name", JSValue.str "Eva")] (enterEditMode exCtx none)

/-- Driver behavior for the C8 run: everything succeeds. -/
def c8client : PgClient :=
  { connectOutcome := Except.ok ()
    queryOutcome := fun _ _ => Except.ok 1
    endOutcome := Except.ok () }

/-- C8 operation, id `op-A`. -/
def c8opA : EditOperation :=
  EditOperation.update
    { id := "op-A"
      primaryKeys := [{ column := "id", value := JSValue.num 5, dataType := "integer" }]
      changes := [{ column := "name", oldValue := JSValue.str "x"
                    newValue := JSValue.str "y", dataType := "text" }]
      originalRow := [("id", JSValue.num 5), ("name", JSValue.str "x")] }

/-- The same operation as `c8opA` except for its id. -/
def c8opB : EditOperation :=
  EditOperation.update
    { id := "op-B"
      primaryKeys := [{ column := "id", value := JSValue.num 5, dataType := "integer" }]
      changes := [{ column := "name", oldValue := JSValue.str "x"
                    newValue := JSValue.str "y", dataType := "text" }]
      originalRow := [("id", JSValue.num 5), ("name", JSValue.str "x")] }

/-- One-operation batch holding `c8opA`. -/
def c8batchA : EditBatch := { context := exCtx, operations := [c8opA] }

/-- One-operation batch holding `c8opB`. -/
def c8batchB : EditBatch := { context := exCtx, operations := [c8opB] }

/-- Driver behavior for the C9 witness: the connection itself fails. -/
def c9client : PgClient :=
  { connectOutcome := Except.error "connection refused"
    queryOutcome := fun _ _ => Except.ok 0
    endOutcome := Except.ok () }

/-- Batch for the C9 witness. -/
def c9batch : EditBatch := { context := exCtx, operations := [c1insert] }

theorem jsGet_jsDelete_self {κ α : Type} [DecidableEq κ] (m : List (κ × α)) (k : κ) :
    jsGet (jsDelete m k) k = none := by
  induction m with
  | nil => rfl
  | cons p m ih =>
    by_cases h : p.1 = k
    · have hstep : jsDelete (p :: m) k = jsDelete m k := by
        simp [jsDelete, List.filter_cons, h]
      rw [hstep]; exact ih
    · have hstep : jsDelete (p :: m) k = p :: jsDelete m k := by
        simp [jsDelete, List.filter_cons, h]
      have hskip : jsGet (p :: jsDelete m k) k = jsGet (jsDelete m k) k := by
        simp [jsGet, List.find?_cons, h]
      rw [hstep, hskip]; exact ih

theorem map_snd_enumFrom {α β : Type} (f : α → β) :
    ∀ (k : Nat) (l : List α), (List.enumFrom k l).map (fun p => f p.2) = l.map f
  | _, [] => rfl
  | k, a :: l => by
    simpa [List.enumFrom] using map_snd_enumFrom f (k + 1) l

theorem mem_enumFrom_snd {α : Type} {p : Nat × α} :
    ∀ {k : Nat} {l : List α}, p ∈ List.enumFrom k l → p.2 ∈ l := by
  intro k l
  induction l generalizing k with
  | nil => intro h; simp [List.enumFrom] at h
  | cons a l ih =>
    intro h
    rcases (by simpa [List.enumFrom] using h : p = (k, a) ∨ p ∈ List.enumFrom (k + 1) l) with
      h1 | h2
    · simp [h1]
    · exact List.mem_cons_of_mem a (ih h2)

theorem buildUpdatesAux_eq_enumFrom (t : TabEditState) (ctx : EditContext)
    (cols : List ColumnInfo) (gen : Nat → String) :
    ∀ (l : List Nat) (k : Nat),
      buildUpdatesAux t ctx cols gen l k =
        (List.enumFrom k (l.filter (emitsUpdate t cols))).map
          (fun p => mkUpdateOp t ctx cols (gen p.1) p.2) := by
  intro l
  induction l with
  | nil => intro k; rfl
  | cons r rs ih =>
    intro k
    by_cases hdel : r ∈ t.deletedRowIndices
    · have hguard : emitsUpdate t cols r = false := by
        simp [emitsUpdate, hdel]
      simp [buildUpdatesAux, hdel, hguard, ih k]
    · rcases horig : jsGet t.originalRows r with _ | originalRow
      · have hguard : emitsUpdate t cols r = false := by
          simp [emitsUpdate, hdel, horig]
        simp [buildUpdatesAux, hdel, horig, hguard, ih k]
      · by_cases hch : 0 < (rowChanges t.modifiedCells cols originalRow r).length
        · have hguard : emitsUpdate t cols r = true := by
            simp [emitsUpdate, hdel, horig, hch]
          simp [buildUpdatesAux, hdel, horig, hch, hguard, List.enumFrom, ih (k + 1)]
        · have hguard : emitsUpdate t cols r = false := by
            simp [emitsUpdate, hdel, horig, hch]
          simp [buildUpdatesAux, hdel, horig, hch, hguard, ih k]

theorem buildDeletesAux_eq_enumFrom (t : TabEditState) (ctx : EditContext)
    (cols : List ColumnInfo) (gen : Nat → String) :
    ∀ (l : List Nat) (k : Nat),
      buildDeletesAux t ctx cols gen l k =
        (List.enumFrom k (l.filter (fun r => (jsGet t.originalRows r).isSome))).map
          (fun p => mkDeleteOp t ctx cols (gen p.1) p.2) := by
  intro l
  induction l with
  | nil => intro k; rfl
  | cons r rs ih =>
    intro k
    rcases horig : jsGet t.originalRows r with _ | originalRow
    · simp [buildDeletesAux, horig, ih k]
    · simp [buildDeletesAux, horig, List.enumFrom, ih (k + 1)]

theorem slotContext_applyAction (a : EditAction) (ts : TabSlot)
    (ha : isEnterAction a = false) :
    slotContext (applyAction a ts) = slotContext ts := by
  cases a with
  | enterEditMode ctx => simp [isEnterAction] at ha
  | exitEditMode => cases ts <;> rfl
  | startCellEdit r c => cases ts <;> rfl
  | cancelCellEdit => cases ts <;> rfl
  | updateCellValue r c v row =>
    cases ts <;> (simp only [applyAction, updateCellValue]; split <;> rfl)
  | markRowForDeletion r row => cases ts <;> rfl
  | unmarkRowForDeletion r => cases ts <;> rfl
  | addNewRow id defaults => cases ts <;> rfl
  | updateNewRowValue rowId c v => cases ts <;> rfl
  | removeNewRow rowId => cases ts <;> rfl
  | revertCellChange r c => cases ts <;> rfl
  | revertRowChanges r => cases ts <;> rfl
  | revertAllChanges => cases ts <;> rfl
  | clearPendingChanges => cases ts <;> rfl

/-- Claim C2: during batch execution, per-operation failures never
short-circuit the loop.  For every driver behavior and every operation list,
the collected error list is exactly the per-operation error of every
operation in batch order (validation error when invalid, caught runtime
error when its statement fails); the statements actually run (and the
preview sql recorded) are exactly those of the valid operations, in batch
order — so an invalid or failing operation never prevents the remaining
operations from being attempted, and an invalid operation is never
executed. -/
theorem runOps_attempts_every_operation (client : PgClient) (ctx : EditContext)
    (ops : List EditOperation) :
    (runOps client ctx ops).errors = ops.filterMap (opErrorOf client ctx) ∧
    (runOps client ctx ops).executedSql =
      (ops.filter (fun op => (validateOperation op).valid)).map
        (fun op => buildPreviewSql op ctx) ∧
    (runOps client ctx ops).calls =
      (ops.filter (fun op => (validateOperation op).valid)).map
        (fun op => DbCall.query (buildQuery op ctx).sql (buildQuery op ctx).params) := by
  induction ops with
  | nil => exact ⟨rfl, rfl, rfl⟩
  | cons op ops ih =>
    obtain ⟨ihe, ihs, ihc⟩ := ih
    by_cases hv : (validateOperation op).valid
    · rcases hq : client.queryOutcome (buildQuery op ctx).sql (buildQuery op ctx).params with e | n
      · refine ⟨?_, ?_, ?_⟩ <;>
          simp [runOps, opOutcome, opErrorOf, hv, hq, ihe, ihs, ihc, List.filter_cons,
            List.filterMap_cons]
      · refine ⟨?_, ?_, ?_⟩ <;>
          simp [runOps, opOutcome, opErrorOf, hv, hq, ihe, ihs, ihc, List.filter_cons,
            List.filterMap_cons]
    · refine ⟨?_, ?_, ?_⟩ <;>
        simp [runOps, opOutcome, opErrorOf, hv, ihe, ihs, ihc, List.filter_cons,
          List.filterMap_cons]

/-- Claim C1: after the per-operation loop, when at least one error was
collected the executor issues `ROLLBACK` and returns the `EditResult` with
`success := false` carrying the full error list; when no error was collected
it issues `COMMIT` and returns `success := true`.  The hypotheses fix the
control statements (connect, `BEGIN`, `COMMIT`, `ROLLBACK`, `end`) to
succeed, which is the regime in which the handler returns an `EditResult`
at all. -/
theorem dbExecute_commit_or_rollback (client : PgClient) (batch : EditBatch)
    (hc : client.connectOutcome = Except.ok ())
    (nb : Nat) (hb : client.queryOutcome "BEGIN" [] = Except.ok nb)
    (nr : Nat) (hr : client.queryOutcome "ROLLBACK" [] = Except.ok nr)
    (nc : Nat) (hcm : client.queryOutcome "COMMIT" [] = Except.ok nc)
    (he : client.endOutcome = Except.ok ()) :
    ((runOps client batch.context batch.operations).errors ≠ [] →
      dbExecute client batch =
        ([DbCall.connect, DbCall.query "BEGIN" []] ++
            (runOps client batch.context batch.operations).calls ++
            [DbCall.query "ROLLBACK" [], DbCall.endConn],
         IpcResp.ok
           { success := false
             rowsAffected := (runOps client batch.context batch.operations).rowsAffected
             executedSql := (runOps client batch.context batch.operations).executedSql
             errors := (runOps client batch.context batch.operations).errors })) ∧
    ((runOps client batch.context batch.operations).errors = [] →
      dbExecute client batch =
        ([DbCall.connect, DbCall.query "BEGIN" []] ++
            (runOps client batch.context batch.operations).calls ++
            [DbCall.query "COMMIT" [], DbCall.endConn],
         IpcResp.ok
           { success := true
             rowsAffected := (runOps client batch.context batch.operations).rowsAffected
             executedSql := (runOps client batch.context batch.operations).executedSql
             errors := (runOps client batch.context batch.operations).errors })) := by
  constructor
  · intro herr
    have hlen : 0 < (runOps client batch.context batch.operations).errors.length :=
      List.length_pos.mpr herr
    simp [dbExecute, hc, hb, hr, he, hlen, List.append_assoc]
  · intro herr
    have hlen : ¬ 0 < (runOps client batch.context batch.operations).errors.length := by
      simp [herr]
    simp [dbExecute, hc, hb, hcm, he, hlen, List.append_assoc]

/-- Claim C9: when the connect, `BEGIN`, final `COMMIT` or final `ROLLBACK`
statement itself raises an error `e`, the handler attempts a best-effort
rollback (present in the call trace) whose own outcome is swallowed — the
response carries the original message `e` whatever the rollback outcome —
and the top-level call returns the transport-level failure `fail e` instead
of an `EditResult`. -/
theorem dbExecute_fatal_error_transport_failure (client : PgClient)
    (batch : EditBatch) (e : String)
    (h : client.connectOutcome = Except.error e
      ∨ (client.connectOutcome = Except.ok () ∧
          client.queryOutcome "BEGIN" [] = Except.error e)
      ∨ (client.connectOutcome = Except.ok () ∧
          (∃ n, client.queryOutcome "BEGIN" [] = Except.ok n) ∧
          (runOps client batch.context batch.operations).errors ≠ [] ∧
          client.queryOutcome "ROLLBACK" [] = Except.error e)
      ∨ (client.connectOutcome = Except.ok () ∧
          (∃ n, client.queryOutcome "BEGIN" [] = Except.ok n) ∧
          (runOps client batch.context batch.operations).errors = [] ∧
          client.queryOutcome "COMMIT" [] = Except.error e)) :
    (dbExecute client batch).2 = IpcResp.fail e ∧
      DbCall.query "ROLLBACK" [] ∈ (dbExecute client batch).1 := by
  rcases h with hc | ⟨hc, hb⟩ | ⟨hc, ⟨nb, hb⟩, herr, hr⟩ | ⟨hc, ⟨nb, hb⟩, herr, hcm⟩
  · constructor <;> simp [dbExecute, hc, catchCalls]
  · constructor <;> simp [dbExecute, hc, hb, catchCalls]
  · have hlen : 0 < (runOps client batch.context batch.operations).errors.length :=
      List.length_pos.mpr herr
    constructor <;> simp [dbExecute, hc, hb, hr, hlen, catchCalls]
  · have hlen : ¬ 0 < (runOps client batch.context batch.operations).errors.length := by
      simp [herr]
    constructor <;> simp [dbExecute, hc, hb, hcm, hlen, catchCalls]

theorem eraseGeneratedId_mkUpdateOp (t : TabEditState) (ctx : EditContext)
    (cols : List ColumnInfo) (id : String) (r : Nat) :
    eraseGeneratedId (mkUpdateOp t ctx cols id r) = mkUpdateOp t ctx cols "" r := rfl

theorem eraseGeneratedId_mkDeleteOp (t : TabEditState) (ctx : EditContext)
    (cols : List ColumnInfo) (id : String) (r : Nat) :
    eraseGeneratedId (mkDeleteOp t ctx cols id r) = mkDeleteOp t ctx cols "" r := rfl

/-- Claim C3, amended: the operations of `buildEditBatch` are all Updates
first, then all Deletes, then all Inserts — but the Updates appear in
first-modification (map-insertion) order of their rows and the Deletes in
deletion-mark (set-insertion) order, not in ascending `rowIndex`; Inserts
follow draft insertion order; the freshly drawn ids are consumed first by
the Updates and then by the Deletes; and (given an edit context) the result
is `null` exactly when the operation list is empty. -/
theorem buildOperations_emission_order (t : TabEditState) (ctx : EditContext)
    (cols : List ColumnInfo) (gen : Nat → String) (h : t.context = some ctx) :
    buildOperations t ctx cols gen =
      (List.enumFrom 0 (updateRowOrder t cols)).map
        (fun p => mkUpdateOp t ctx cols (gen p.1) p.2) ++
      (List.enumFrom (updateRowOrder t cols).length (deleteRowOrder t)).map
        (fun p => mkDeleteOp t ctx cols (gen p.1) p.2) ++
      buildInserts t.newRows cols ∧
    (buildEditBatch (some t) cols gen = none ↔
      buildOperations t ctx cols gen = []) := by
  constructor
  · rw [buildOperations, buildUpdatesAux_eq_enumFrom, buildDeletesAux_eq_enumFrom]
    rfl
  · constructor
    · intro hnone
      by_cases hz : (buildOperations t ctx cols gen).length = 0
      · exact List.length_eq_zero.mp hz
      · simp [buildEditBatch, h, hz] at hnone
    · intro hnil
      simp [buildEditBatch, h, hnil]

/-- Claim C5: every Update and Delete operation emitted by `buildEditBatch`
reads each `primaryKeys` value off the operation's `originalRow`, which is a
row stored in the snapshot map — never off a modified cell value (the
snapshot map is the only source consulted, even when a primary-key column
has a pending edit). -/
theorem primaryKeys_read_from_snapshot (t : TabEditState) (ctx : EditContext)
    (cols : List ColumnInfo) (gen : Nat → String) (op : EditOperation)
    (h : op ∈ buildOperations t ctx cols gen) :
    (∀ u, op = EditOperation.update u →
      u.primaryKeys = mkPrimaryKeys ctx cols u.originalRow ∧
        ∃ r, jsGet t.originalRows r = some u.originalRow) ∧
    (∀ d, op = EditOperation.delete d →
      d.primaryKeys = mkPrimaryKeys ctx cols d.originalRow ∧
        ∃ r, jsGet t.originalRows r = some d.originalRow) := by
  rw [buildOperations, buildUpdatesAux_eq_enumFrom, buildDeletesAux_eq_enumFrom] at h
  rcases List.mem_append.mp h with h12 | h3
  rcases List.mem_append.mp h12 with h1 | h2
  · obtain ⟨p, hp, hop⟩ := List.mem_map.mp h1
    have hsnd := mem_enumFrom_snd hp
    have hemit : emitsUpdate t cols p.2 = true := by
      exact List.of_mem_filter hsnd
    rcases horig : jsGet t.originalRows p.2 with _ | orow
    · rw [emitsUpdate, horig] at hemit
      simp at hemit
    · constructor
      · intro u hu2
        rw [hu2] at hop
        simp only [mkUpdateOp, EditOperation.update.injEq] at hop
        constructor
        · rw [← hop]
        · refine ⟨p.2, ?_⟩
          rw [← hop]
          simp [horig]
      · intro d hd2
        rw [hd2] at hop
        simp [mkUpdateOp] at hop
  · obtain ⟨p, hp, hop⟩ := List.mem_map.mp h2
    have hsnd := mem_enumFrom_snd hp
    have hsome : (jsGet t.originalRows p.2).isSome = true := by
      simpa using List.of_mem_filter hsnd
    rcases horig : jsGet t.originalRows p.2 with _ | orow
    · rw [horig] at hsome
      simp at hsome
    · constructor
      · intro u hu2
        rw [hu2] at hop
        simp [mkDeleteOp] at hop
      · intro d hd2
        rw [hd2] at hop
        simp only [mkDeleteOp, EditOperation.delete.injEq] at hop
        constructor
        · rw [← hop]
        · refine ⟨p.2, ?_⟩
          rw [← hop]
          simp [horig]
  · obtain ⟨nr, _, hop⟩ := List.mem_map.mp (by simpa [buildInserts] using h3)
    constructor
    · intro u hu2
      rw [hu2] at hop
      simp at hop
    · intro d hd2
      rw [hd2] at hop
      simp at hop

/-- Claim C7, amended: `buildEditBatch` is deterministic in the store state
and columns up to the operation ids freshly drawn from `crypto.randomUUID()`
for Update and Delete operations: for any two draws of the uuid supply, the
two results agree after erasing those generated ids (Insert ids, which come
from the stored draft, are preserved and do agree). -/
theorem buildEditBatch_pure_up_to_generated_ids (ts : TabSlot)
    (cols : List ColumnInfo) (g1 g2 : Nat → String) :
    batchShape (buildEditBatch ts cols g1) = batchShape (buildEditBatch ts cols g2) := by
  cases ts with
  | none => rfl
  | some t =>
    rcases hctx : t.context with _ | ctx
    · simp [buildEditBatch, hctx]
    · have key : ∀ g : Nat → String,
          (buildOperations t ctx cols g).map eraseGeneratedId =
            (updateRowOrder t cols).map (fun r => mkUpdateOp t ctx cols "" r) ++
            (deleteRowOrder t).map (fun r => mkDeleteOp t ctx cols "" r) ++
            (buildInserts t.newRows cols).map eraseGeneratedId := by
        intro g
        rw [buildOperations, buildUpdatesAux_eq_enumFrom, buildDeletesAux_eq_enumFrom]
        simp only [List.map_append, List.map_map, Function.comp_def,
          eraseGeneratedId_mkUpdateOp, eraseGeneratedId_mkDeleteOp]
        rw [map_snd_enumFrom (fun r => mkUpdateOp t ctx cols "" r),
          map_snd_enumFrom (fun r => mkDeleteOp t ctx cols "" r)]
        rfl
      have hlen : (buildOperations t ctx cols g1).length =
          (buildOperations t ctx cols g2).length := by
        have h12 := (key g1).trans (key g2).symm
        have := congrArg List.length h12
        simpa using this
      by_cases hz : (buildOperations t ctx cols g1).length = 0
      · have hz2 : (buildOperations t ctx cols g2).length = 0 := by rw [← hlen]; exact hz
        simp [buildEditBatch, hctx, hz, hz2]
      · have hz2 : ¬ (buildOperations t ctx cols g2).length = 0 := by rw [← hlen]; exact hz
        have h12 := (key g1).trans (key g2).symm
        simp [buildEditBatch, hctx, hz, hz2, batchShape, h12]

/-- Claim C10: `buildEditBatch` returns `null` for every tab whose edit
context was never set: from a fresh store, no sequence of store actions that
excludes `enterEditMode` (the only setter of the context) can make
`buildEditBatch` return a batch, even when pending cell modifications,
deletion marks or new-row drafts exist. -/
theorem buildEditBatch_null_when_context_never_set (ts : TabSlot)
    (h : ReachableNoEnter ts) (cols : List ColumnInfo) (gen : Nat → String) :
    buildEditBatch ts cols gen = none := by
  have hctx : slotContext ts = none := by
    induction h with
    | init => rfl
    | step a ts hr ha ih => rw [slotContext_applyAction a ts ha]; exact ih
  cases ts with
  | none => rfl
  | some t =>
    have ht : t.context = none := hctx
    simp [buildEditBatch, ht]

/-- Witness for C10: a tab that received a real pending modification through
`updateCellValue` but never `enterEditMode` still yields a `null` batch. -/
theorem buildEditBatch_null_when_context_never_set_witness :
    buildEditBatch
      (applyAction
        (EditAction.updateCellValue 0 "name" (JSValue.str "x") [("name", JSValue.null)])
        none)
      [] (fun _ => "u") = none :=
  buildEditBatch_null_when_context_never_set _
    (ReachableNoEnter.step
      (EditAction.updateCellValue 0 "name" (JSValue.str "x") [("name", JSValue.null)])
      none ReachableNoEnter.init rfl) [] (fun _ => "u")

/-- Claim C6, amended: the revert branch of `updateCellValue` fires when the
new value strictly equals the original, or when the new value is the empty
string and the original is `null` — the null/empty-string equivalence holds
in that single direction only (a `null` new value over an empty-string
original is recorded as a modification, see the counterexample).  Whenever
the branch fires, the CellEdit entry for that cell is absent afterwards; in
particular any call sequence whose last call hits this condition leaves no
entry. -/
theorem updateCellValue_noop_leaves_no_edit (rowIndex : Nat) (columnName : String)
    (value : JSValue) (originalRow : Row) (ts : TabSlot)
    (h : value = rowGet originalRow columnName ∨
      (value = JSValue.str "" ∧ rowGet originalRow columnName = JSValue.null)) :
    jsGet (slotState (updateCellValue rowIndex columnName value originalRow ts)).modifiedCells
      (rowIndex, columnName) = none := by
  simp only [updateCellValue]
  rw [if_pos h]
  simp [slotState, jsGet_jsDelete_self]

/-- Witness for C6 (amended): editing a cell away from its original value
and then back to it leaves no CellEdit entry. -/
theorem updateCellValue_noop_leaves_no_edit_witness :
    jsGet (slotState (updateCellValue 2 "email" (JSValue.str "a@x.com")
        [("email", JSValue.str "a@x.com")]
        (updateCellValue 2 "email" (JSValue.str "b@x.com")
          [("email", JSValue.str "a@x.com")] none))).modifiedCells
      (2, "email") = none :=
  updateCellValue_noop_leaves_no_edit 2 "email" (JSValue.str "a@x.com")
    [("email", JSValue.str "a@x.com")]
    (updateCellValue 2 "email" (JSValue.str "b@x.com")
      [("email", JSValue.str "a@x.com")] none)
    (Or.inl (by decide))

/-- Counterexample to C6 as stated: the claim says null and empty string are
treated as equal in both directions, so writing `null` over an original
empty-string value should leave no CellEdit entry; the code only tests
`value === '' && originalValue === null`, and records the modification. -/
theorem updateCellValue_null_over_empty_records_edit :
    jsGet (slotState (updateCellValue 0 "name" JSValue.null
        [("name", JSValue.str "")] none)).modifiedCells (0, "name") =
      some JSValue.null := by decide

/-- Claim C4 (code bug), evaluated at the failing run: after
`markRowForDeletion` snapshots row 0, an edit plus a revert through
`updateCellValue` deletes the snapshot even though the deletion mark
remains (the revert branch of `updateCellValue`, unlike `revertCellChange`,
never consults the deletion set), and the subsequently built batch is
`null` — the pending DELETE is silently dropped.  Conversely,
`unmarkRowForDeletion` never garbage-collects: after mark followed by
unmark, no modification and no mark remain, yet the snapshot persists. -/
theorem updateCellValue_gc_drops_snapshot_of_marked_row :
    (slotState c4slot).deletedRowIndices = [0] ∧
    (slotState c4slot).modifiedCells = [] ∧
    (slotState c4slot).originalRows = [] ∧
    buildEditBatch c4slot exCols exGen = none ∧
    (slotState c4unmarkSlot).deletedRowIndices = [] ∧
    (slotState c4unmarkSlot).modifiedCells = [] ∧
    (slotState c4unmarkSlot).originalRows = [(0, c4row)] := by decide

/-- Counterexample to C3 as stated: the user modifies row 5 first and row 2
second; the claim says the Update operations appear in ascending rowIndex
(row 2 first), but the batch emits row 5's update first — the primary-key
values of the emitted updates expose the rows, and the update emission order
is [5, 2], which is not ascending. -/
theorem buildEditBatch_updates_not_ascending :
    updatePkValues (buildEditBatch c3slot exCols exGen) =
      [[JSValue.num 5], [JSValue.num 2]] ∧
    updateRowOrder (slotState c3slot) exCols = [5, 2] ∧
    ¬ List.Pairwise (· ≤ ·) (updateRowOrder (slotState c3slot) exCols) := by decide

/-- Witness for C3 (amended), at the counterexample state. -/
theorem buildOperations_emission_order_witness :
    buildOperations (slotState c3slot) exCtx exCols exGen =
      (List.enumFrom 0 (updateRowOrder (slotState c3slot) exCols)).map
        (fun p => mkUpdateOp (slotState c3slot) exCtx exCols (exGen p.1) p.2) ++
      (List.enumFrom (updateRowOrder (slotState c3slot) exCols).length
          (deleteRowOrder (slotState c3slot))).map
        (fun p => mkDeleteOp (slotState c3slot) exCtx exCols (exGen p.1) p.2) ++
      buildInserts (slotState c3slot).newRows exCols ∧
    (buildEditBatch (some (slotState c3slot)) exCols exGen = none ↔
      buildOperations (slotState c3slot) exCtx exCols exGen = []) :=
  buildOperations_emission_order (slotState c3slot) exCtx exCols exGen (by decide)

/-- Counterexample to C7 as stated: the ids of emitted Update and Delete
operations come from fresh `crypto.randomUUID()` draws, so two invocations
on the identical store state whose draws differ (as successive calls of
`crypto.randomUUID` do) return structurally different operation lists. -/
theorem buildEditBatch_ids_depend_on_uuid_draws :
    buildEditBatch c7slot exCols (fun n => "a-" ++ toString n) ≠
      buildEditBatch c7slot exCols (fun n => "b-" ++ toString n) := by decide

/-- Claim C8 (code bug), evaluated at the failing input: the handler pushes
the bare `buildPreviewSql` string, so `executedSql` is a list of plain SQL
strings carrying no operation id — the result is even identical for two
batches that differ only in their operation's id. -/
theorem dbExecute_executedSql_lacks_operation_ids :
    (dbExecute c8client c8batchA).2 =
      IpcResp.ok
        { success := true
          rowsAffected := 1
          executedSql := ["UPDATE \"public\".\"users\" SET \"name\" = \x27y\x27 WHERE \"id\" = 5"]
          errors := [] } ∧
    (dbExecute c8client c8batchA).2 = (dbExecute c8client c8batchB).2 := by decide

/-- Witness for C1: a two-operation batch whose second operation violates a
constraint; the handler rolls back and reports the collected error list with
`success := false`. -/
theorem dbExecute_commit_or_rollback_witness :
    dbExecute c1client c1batch =
      ([DbCall.connect, DbCall.query "BEGIN" []] ++
          (runOps c1client c1batch.context c1batch.operations).calls ++
          [DbCall.query "ROLLBACK" [], DbCall.endConn],
       IpcResp.ok
         { success := false
           rowsAffected := (runOps c1client c1batch.context c1batch.operations).rowsAffected
           executedSql := (runOps c1client c1batch.context c1batch.operations).executedSql
           errors := (runOps c1client c1batch.context c1batch.operations).errors }) :=
  (dbExecute_commit_or_rollback c1client c1batch rfl 1 rfl 1 rfl 1 rfl rfl).1 (by decide)

/-- Witness for C9: a failing connect produces the transport-level failure
carrying the original message, with a best-effort rollback attempted. -/
theorem dbExecute_fatal_error_transport_failure_witness :
    (dbExecute c9client c9batch).2 = IpcResp.fail "connection refused" ∧
      DbCall.query "ROLLBACK" [] ∈ (dbExecute c9client c9batch).1 :=
  dbExecute_fatal_error_transport_failure c9client c9batch "connection refused" (Or.inl rfl)

/-- Witness for C5: in a state where the primary-key column itself has a
pending edit (1 → 99), the emitted update's primary key carries the snapshot
value 1. -/
theorem primaryKeys_read_from_snapshot_witness :
    (∀ u, c5op = EditOperation.update u →
      u.primaryKeys = mkPrimaryKeys exCtx exCols u.originalRow ∧
        ∃ r, jsGet c5state.originalRows r = some u.originalRow) ∧
    (∀ d, c5op = EditOperation.delete d →
      d.primaryKeys = mkPrimaryKeys exCtx exCols d.originalRow ∧
        ∃ r, jsGet c5state.originalRows r = some d.originalRow) :=
  primaryKeys_read_from_snapshot c5state exCtx exCols exGen c5op (by decide)
